import Mathlib

/-!
Shallow embedding of the libsql hrana transaction layer
(`HranaTransaction.execute/rollback/commit`, `executeHranaBatch`,
`stmtToHrana`, `resultSetFromHrana`, `mapHranaError`) and proofs of the
specified properties.

Asynchrony is modelled by explicit state passing: a per-call environment
predetermines the outcome of every remote round trip, and each operation
returns the updated transaction state, the caller-visible result
(`Except Err _`), and the ordered trace of operations issued on the
stream.  Concurrency of `execute` calls is modelled by a small-step
scheduler whose atomic segments are delimited by the `await` points of
the source.
-/

namespace LibsqlClient

/-- SQL values carried in rows and parameter bindings.  Rows are opaque
payloads for the code under verification (they are copied, never
inspected), so a simplified value type suffices. -/
inductive Value where
  | null : Value
  | integer (i : Int) : Value
  | text (s : String) : Value
  | blob (bytes : List Nat) : Value
deriving DecidableEq

/-- Embedding of `hrana.Stmt`: SQL text plus positional (`bindIndexes`)
and named (`bindName`) parameter bindings. -/
structure Stmt where
  sql : String
  args : List Value
  namedArgs : List (String × Value)
deriving DecidableEq

/-- Embedding of the `InStatement` input type: either a bare SQL string
or an object with `sql` and `args` (positional array or named record). -/
inductive InArgs where
  | positional (vs : List Value) : InArgs
  | named (pairs : List (String × Value)) : InArgs
deriving DecidableEq

inductive InStatement where
  | sqlOnly (sql : String) : InStatement
  | withArgs (sql : String) (args : InArgs) : InStatement
deriving DecidableEq

/-- Embedding of `stmtToHrana` (part_001 lines 186-201): a bare string
becomes a statement without bindings; positional args go through
`bindIndexes`, named args through `bindName` for each entry. -/
def stmtToHrana : InStatement → Stmt
  | .sqlOnly sql => ⟨sql, [], []⟩
  | .withArgs sql (.positional vs) => ⟨sql, vs, []⟩
  | .withArgs sql (.named pairs) => ⟨sql, [], pairs⟩

/-- Embedding of `hrana.RowsResult`: column names may be absent (`null`
in the protocol), the last-inserted row id may be absent entirely. -/
structure RowsResult where
  columnNames : List (Option String)
  rows : List (List Value)
  affectedRowCount : Nat
  lastInsertRowid : Option Int
deriving DecidableEq

/-- Embedding of the public `ResultSet` shape. -/
structure ResultSet where
  columns : List String
  rows : List (List Value)
  rowsAffected : Nat
  lastInsertRowid : Option Int
deriving DecidableEq

/-- Embedding of the `hrana.ClientError` subtype hierarchy.  Each
constructor is one leaf subtype (the subtypes are siblings, so the
`instanceof` chain of the source distinguishes exactly these cases);
`plainClient` stands for any other error that is still an
`instanceof hrana.ClientError` (e.g. `InternalError`, `MisuseError`).
A `ResponseError` carries an optional server-supplied error code. -/
inductive HranaClientError where
  | responseError (message : String) (code : Option String) : HranaClientError
  | protoError (message : String) : HranaClientError
  | closedError (message : String) : HranaClientError
  | webSocketError (message : String) : HranaClientError
  | httpServerError (message : String) : HranaClientError
  | protocolVersionError (message : String) : HranaClientError
  | plainClient (message : String) : HranaClientError
deriving DecidableEq

/-- The `message` property shared by all `hrana.ClientError` subtypes. -/
def clientErrorMessage : HranaClientError → String
  | .responseError m _ => m
  | .protoError m => m
  | .closedError m => m
  | .webSocketError m => m
  | .httpServerError m => m
  | .protocolVersionError m => m
  | .plainClient m => m

/-- Embedding of `LibsqlError`: message, code string, optional wrapped
cause (the only causes this layer ever attaches are hrana client
errors). -/
structure LibsqlError where
  message : String
  code : String
  cause : Option HranaClientError
deriving DecidableEq

/-- Any value that can be thrown through this layer: a
`hrana.ClientError`, a `LibsqlError` raised by this layer itself, or
some foreign error (`other`), which this layer never inspects. -/
inductive Err where
  | hrana (e : HranaClientError) : Err
  | libsql (e : LibsqlError) : Err
  | other (tag : String) : Err
deriving DecidableEq

/-- The `instanceof` chain of `mapHranaError` (part_001 lines 215-228)
computing the error code: `let code = "UNKNOWN"` is the final catch-all
arm; a `ResponseError` whose `code` is `undefined` falls through every
branch and keeps `"UNKNOWN"`. -/
def hranaErrorCode : HranaClientError → String
  | .responseError _ (some c) => c
  | .protoError _ => "HRANA_PROTO_ERROR"
  | .closedError _ => "HRANA_CLOSED_ERROR"
  | .webSocketError _ => "HRANA_WEBSOCKET_ERROR"
  | .httpServerError _ => "SERVER_ERROR"
  | .protocolVersionError _ => "PROTOCOL_VERSION_ERROR"
  | _ => "UNKNOWN"

/-- Embedding of `mapHranaError` (part_001 lines 213-232): a
`hrana.ClientError` is wrapped into a `LibsqlError` carrying the
original message, the classified code and the original error as cause;
anything else is returned unchanged. -/
def mapHranaError : Err → Err
  | .hrana ce => .libsql ⟨clientErrorMessage ce, hranaErrorCode ce, some ce⟩
  | e => e

/-- Embedding of `resultSetFromHrana` (part_001 lines 203-211):
`columns` substitutes `""` for an absent name (`c ?? ""`), `rows` and
`affectedRowCount` are copied unchanged, and `lastInsertRowid` applies
the `BigInt` conversion (identity on our integer model) only when the
input id is present, staying absent otherwise. -/
def resultSetFromHrana (hranaRows : RowsResult) : ResultSet :=
  ⟨hranaRows.columnNames.map (fun c => match c with | some s => s | none => ""),
   hranaRows.rows,
   hranaRows.affectedRowCount,
   match hranaRows.lastInsertRowid with
   | some rowid => some rowid
   | none => none⟩

/-- Embedding of `hrana.BatchCond`: the source only ever builds
`BatchCond.ok(step)` and `BatchCond.not(cond)`.  Steps are referenced by
their position in the batch (steps are created in order, so a step's
identity is its index). -/
inductive BatchCond where
  | ok (step : Nat) : BatchCond
  | not (cond : BatchCond) : BatchCond
deriving DecidableEq

/-- The request a batch step carries: `step.run(sql)` or
`step.query(stmt)`. -/
inductive StepReq where
  | run (sql : String) : StepReq
  | query (stmt : Stmt) : StepReq
deriving DecidableEq

/-- A step of a batch: optional condition plus its request. -/
structure Step where
  condition : Option BatchCond
  req : StepReq
deriving DecidableEq

/-- The resolved outcome of one batch step, as observed through its
promise: `ok` (ran, result available), `err` (ran and failed, the
promise rejects), or `skipped` (condition unsatisfied, the promise
resolves with `undefined`).  For `run` steps the `ok` payload is
unused. -/
inductive StepOutcome where
  | ok (rows : RowsResult) : StepOutcome
  | err (e : Err) : StepOutcome
  | skipped : StepOutcome
deriving DecidableEq

/-- Environment of one batch round trip: whether `batch.execute()`
itself rejects, and the outcome of the step at each index. -/
structure BatchEnv where
  execFailure : Option Err
  outcome : Nat → StepOutcome

/-- Awaiting the promise of step `i`: an errored step rejects, an
executed step yields its result, a skipped step resolves with
`undefined` (modelled as `none`). -/
def awaitStep (env : BatchEnv) (i : Nat) : Except Err (Option RowsResult) :=
  match env.outcome i with
  | .ok r => .ok (some r)
  | .err e => .error e
  | .skipped => .ok none

/-- The `SERVER_ERROR` raised by `executeHranaBatch` when a statement
step resolved with `undefined` (part_001 lines 173-178). -/
def serverMissingErr : Err :=
  .libsql ⟨"Server did not return a result for statement in a batch", "SERVER_ERROR", none⟩

/-- Statement-step construction of `executeHranaBatch` (part_001 lines
149-157), threading the `lastStep` variable: the step after `lastStep`
gets condition `ok(lastStep)` and occupies index `lastStep + 1`;
returns the built steps and the final value of `lastStep`. -/
def buildStmtSteps : Nat → List Stmt → List Step × Nat
  | lastStep, [] => ([], lastStep)
  | lastStep, stmt :: rest =>
    let t := buildStmtSteps (lastStep + 1) rest
    (⟨some (.ok lastStep), .query stmt⟩ :: t.1, t.2)

/-- The full step list built by `executeHranaBatch` (part_001 lines
146-165): `BEGIN` at index 0, the statement steps each conditioned on
the previous step, `COMMIT` conditioned on the final `lastStep`, and
`ROLLBACK` conditioned on `not(ok(COMMIT))` where the `COMMIT` step
sits at index `stmts.length + 1`. -/
def hranaBatchSteps (hranaStmts : List Stmt) : List Step :=
  let t := buildStmtSteps 0 hranaStmts
  (⟨none, .run "BEGIN"⟩ :: t.1) ++
    [⟨some (.ok t.2), .run "COMMIT"⟩,
     ⟨some (.not (.ok (hranaStmts.length + 1))), .run "ROLLBACK"⟩]

/-- The result-collection loop of `executeHranaBatch` (part_001 lines
169-180), awaiting the statement-step promises in order starting at
step index `i`: a rejected promise propagates, an `undefined` result
raises `serverMissingErr`, otherwise the mapped result set is
appended. -/
def collectStmtResults (env : BatchEnv) : Nat → List Stmt → Except Err (List ResultSet)
  | _, [] => .ok []
  | i, _ :: rest =>
    match awaitStep env i with
    | .error e => .error e
    | .ok none => .error serverMissingErr
    | .ok (some hranaRows) =>
      match collectStmtResults env (i + 1) rest with
      | .error e => .error e
      | .ok resultSets => .ok (resultSetFromHrana hranaRows :: resultSets)

/-- The post-round-trip phase of `executeHranaBatch` (part_001 lines
167-183): `await batch.execute()`, `await beginPromise` (step 0), the
collection loop over statement steps (indices 1..N), then
`await commitPromise` (index N+1).  The `ROLLBACK` step (index N+2) is
never awaited: its promise has a `.catch` swallowing any failure. -/
def executeHranaBatchRun (hranaStmts : List Stmt) (env : BatchEnv) :
    Except Err (List ResultSet) :=
  match env.execFailure with
  | some e => .error e
  | none =>
    match awaitStep env 0 with
    | .error e => .error e
    | .ok _ =>
      match collectStmtResults env 1 hranaStmts with
      | .error e => .error e
      | .ok resultSets =>
        match awaitStep env (hranaStmts.length + 1) with
        | .error e => .error e
        | .ok _ => .ok resultSets

/-- Whole behaviour of `executeHranaBatch`: the list of batch
submissions performed (exactly one: the single `await batch.execute()`)
together with the caller-visible result. -/
def executeHranaBatch (hranaStmts : List Stmt) (env : BatchEnv) :
    List (List Step) × Except Err (List ResultSet) :=
  ([hranaBatchSteps hranaStmts], executeHranaBatchRun hranaStmts env)

/-- State of one `HranaTransaction`: the write-once `#started` slot
(`none` while the field is `undefined`; `some o` once the first
`execute` has assigned the promise, where `o` is the outcome awaiting
it yields), whether the transaction object reports `closed`, and
whether its stream is closed. -/
structure TxState where
  started : Option (Except Err Unit)
  txClosed : Bool
  streamClosed : Bool

/-- Modelled from the spec: the abstract `close()` hook is implemented
by the transport-specific subclasses (ws/http), which are not part of
the sources under verification.  Per the spec, closing the transaction
marks it closed and "closing the transaction always closes the stream";
`close()` never touches the `#started` slot. -/
def closeTx (tx : TxState) : TxState :=
  ⟨tx.started, true, true⟩

/-- Observable events, in order, of one coordinator operation:
submitting a batch, running or querying a single statement on the
stream, requesting the stream to close, and invoking the `close()`
hook of the transaction. -/
inductive Event where
  | submitBatch (steps : List Step) : Event
  | runStmt (sql : String) : Event
  | queryStmt (stmt : Stmt) : Event
  | closeStream : Event
  | closeTxCalled : Event
deriving DecidableEq

/-- Environment of one `execute` call: whether `batch.execute()`
rejects (only consulted on the BEGIN path), the outcome of the `BEGIN`
step, and the outcome of the caller's own statement (the conditioned
batch step on the first call, the direct `stream.query` otherwise). -/
structure ExecEnv where
  batchExecFailure : Option Err
  beginOutcome : StepOutcome
  stmtOutcome : StepOutcome

/-- The value stored into `this.#started` (part_001 lines 51-55):
`batch.execute().then(() => beginPromise).then(() => undefined)` —
it rejects if the batch submission rejects, else if the `BEGIN` step
errored, and resolves otherwise (a skipped `run` step resolves with
`undefined`, which `.then` accepts). -/
def startedOutcomeOf (env : ExecEnv) : Except Err Unit :=
  match env.batchExecFailure with
  | some e => .error e
  | none =>
    match env.beginOutcome with
    | .err e => .error e
    | _ => .ok ()

/-- The two-step batch built by the first `execute` (part_001 lines
40-49): step 0 runs `BEGIN`, step 1 is the caller's statement
conditioned on `ok(step 0)`. -/
def beginBatchSteps (hranaStmt : Stmt) : List Step :=
  [⟨none, .run "BEGIN"⟩, ⟨some (.ok 0), .query hranaStmt⟩]

/-- Awaiting `rowsPromise` on the BEGIN path (part_001 lines 46-49 and
73): the conditioned step's promise goes through
`.then((result) => result!)`; the non-null assertion is erased at
runtime, so a skipped step hands `undefined` to `resultSetFromHrana`,
which fails with a runtime `TypeError` (a foreign, unmapped error).
This corner is unreachable when the server honours the condition
semantics. -/
def awaitRows (o : StepOutcome) : Except Err RowsResult :=
  match o with
  | .ok r => .ok r
  | .err e => .error e
  | .skipped => .error (.other "TypeError: undefined RowsResult")

/-- Continuation of an `execute` call after its synchronous prefix:
either the call already finished (threw before its first `await`),
or it submitted the BEGIN batch and suspends on `await this.#started`
(part_001 line 58), or it found the slot assigned and suspends on
`await this.#started` before querying directly (part_001 lines 68-70). -/
inductive AfterA where
  | finished (r : Except Err ResultSet) : AfterA
  | awaitBegin (env : ExecEnv) : AfterA
  | awaitQuery (hranaStmt : Stmt) (env : ExecEnv) : AfterA

structure PhaseAOut where
  tx : TxState
  next : AfterA
  trace : List Event

structure ExecOut where
  tx : TxState
  result : Except Err ResultSet
  trace : List Event

/-- Message of the `TRANSACTION_CLOSED` error thrown by `execute`
(part_001 lines 26-29). -/
def execClosedMsg : String :=
  "Cannot execute a statement because the transaction is closed"

/-- Synchronous prefix of `execute` (part_001 lines 23-58, up to the
first `await`): the closed check, the statement conversion, and — when
`#started` is still `undefined` — building and submitting the BEGIN
batch and assigning the write-once slot.  The slot assignment happens
before any suspension, so no interleaved call can observe it unset
afterwards. -/
def phaseA (cache : Stmt → Stmt) (tx : TxState) (stmt : InStatement)
    (env : ExecEnv) : PhaseAOut :=
  match tx.streamClosed with
  | true =>
    ⟨tx, .finished (.error (.libsql ⟨execClosedMsg, "TRANSACTION_CLOSED", none⟩)), []⟩
  | false =>
    let hranaStmt := cache (stmtToHrana stmt)
    match tx.started with
    | none =>
      ⟨⟨some (startedOutcomeOf env), tx.txClosed, tx.streamClosed⟩,
       .awaitBegin env,
       [.submitBatch (beginBatchSteps hranaStmt)]⟩
    | some _ => ⟨tx, .awaitQuery hranaStmt env, []⟩

/-- Resumption of the call that submitted the BEGIN batch (part_001
lines 57-76): `await this.#started` — on failure the transaction is
closed (line 62) and the error is rethrown, mapped by the outer catch;
on success `await rowsPromise` yields the result or the statement's own
mapped error, leaving the transaction open. -/
def phaseB1 (tx : TxState) (env : ExecEnv) : ExecOut :=
  match startedOutcomeOf env with
  | .error e => ⟨closeTx tx, .error (mapHranaError e), [.closeTxCalled]⟩
  | .ok _ =>
    match awaitRows env.stmtOutcome with
    | .error e => ⟨tx, .error (mapHranaError e), []⟩
    | .ok rows => ⟨tx, .ok (resultSetFromHrana rows), []⟩

/-- Resumption of a call that found the slot assigned (part_001 lines
65-76): `await this.#started` reads the shared outcome — a failure is
rethrown (mapped) without closing anything; on success the statement is
issued directly with `stream.query` and its result mapped.  The `none`
branch is unreachable: this continuation only exists after a prefix
observed the slot assigned, and the slot is never unassigned. -/
def phaseB2 (tx : TxState) (hranaStmt : Stmt) (env : ExecEnv) : ExecOut :=
  match tx.started with
  | some (.error e) => ⟨tx, .error (mapHranaError e), []⟩
  | some (.ok _) =>
    match awaitRows env.stmtOutcome with
    | .error e => ⟨tx, .error (mapHranaError e), [.queryStmt hranaStmt]⟩
    | .ok rows => ⟨tx, .ok (resultSetFromHrana rows), [.queryStmt hranaStmt]⟩
  | none => ⟨tx, .error (.other "await on unset started slot"), []⟩

/-- One whole `execute` call, run without interleaving: the synchronous
prefix followed by its continuation. -/
def executeTx (cache : Stmt → Stmt) (tx : TxState) (stmt : InStatement)
    (env : ExecEnv) : ExecOut :=
  let a := phaseA cache tx stmt env
  match a.next with
  | .finished r => ⟨a.tx, r, a.trace⟩
  | .awaitBegin env1 =>
    let b := phaseB1 a.tx env1
    ⟨b.tx, b.result, a.trace ++ b.trace⟩
  | .awaitQuery hranaStmt env1 =>
    let b := phaseB2 a.tx hranaStmt env1
    ⟨b.tx, b.result, a.trace ++ b.trace⟩

/-- Environment of a `rollback`/`commit` call: whether the
`stream.run(...)` round trip rejects (`none` = success). -/
structure OpEnv where
  runFailure : Option Err

structure OpOut where
  tx : TxState
  result : Except Err Unit
  trace : List Event

/-- Embedding of `rollback` (part_001 lines 79-109).  Already-closed
stream: plain return (the `finally` still invokes `close()`).  Slot
unassigned: nothing to roll back, plain return.  Otherwise the `BEGIN`
outcome is deliberately not awaited; `ROLLBACK` is pipelined with the
stream close, its failure is mapped by the inner `.catch` and again by
the outer catch, and `close()` always runs last. -/
def rollbackTx (tx : TxState) (env : OpEnv) : OpOut :=
  match tx.streamClosed with
  | true => ⟨closeTx tx, .ok (), [.closeTxCalled]⟩
  | false =>
    match tx.started with
    | none => ⟨closeTx tx, .ok (), [.closeTxCalled]⟩
    | some _ =>
      match env.runFailure with
      | some e =>
        ⟨closeTx tx, .error (mapHranaError (mapHranaError e)),
         [.runStmt "ROLLBACK", .closeStream, .closeTxCalled]⟩
      | none =>
        ⟨closeTx tx, .ok (), [.runStmt "ROLLBACK", .closeStream, .closeTxCalled]⟩

/-- Message of the `TRANSACTION_CLOSED` error thrown by `commit`
(part_001 lines 116-119). -/
def commitClosedMsg : String :=
  "Cannot commit the transaction because it is already closed"

/-- Embedding of `commit` (part_001 lines 111-139).  Already-closed
stream: throws `TRANSACTION_CLOSED` (mapped by the outer catch, which
passes a `LibsqlError` through unchanged).  Slot unassigned: plain
return.  Otherwise `await this.#started` — a failed `BEGIN` rethrows
its error (mapped) without sending `COMMIT`; on success `COMMIT` is
pipelined with the stream close.  `close()` always runs last. -/
def commitTx (tx : TxState) (env : OpEnv) : OpOut :=
  match tx.streamClosed with
  | true =>
    ⟨closeTx tx,
     .error (mapHranaError (.libsql ⟨commitClosedMsg, "TRANSACTION_CLOSED", none⟩)),
     [.closeTxCalled]⟩
  | false =>
    match tx.started with
    | none => ⟨closeTx tx, .ok (), [.closeTxCalled]⟩
    | some (.error e) => ⟨closeTx tx, .error (mapHranaError e), [.closeTxCalled]⟩
    | some (.ok _) =>
      match env.runFailure with
      | some e =>
        ⟨closeTx tx, .error (mapHranaError (mapHranaError e)),
         [.runStmt "COMMIT", .closeStream, .closeTxCalled]⟩
      | none =>
        ⟨closeTx tx, .ok (), [.runStmt "COMMIT", .closeStream, .closeTxCalled]⟩

/-- A concurrent `execute` call: not yet entered, suspended after its
synchronous prefix, or finished.  The suspension points of the source
inside a continuation never touch the `#started` slot, so lumping each
continuation into one atomic segment is sound for the properties proved
about the scheduler. -/
inductive TaskPhase where
  | entry (stmt : InStatement) (env : ExecEnv) : TaskPhase
  | mid (k : AfterA) : TaskPhase

/-- Advance one task by one atomic segment; `none` when the task is
already finished. -/
def stepTask (cache : Stmt → Stmt) (tx : TxState) :
    TaskPhase → Option (TxState × TaskPhase × List Event)
  | .entry stmt env =>
    let a := phaseA cache tx stmt env
    some (a.tx, .mid a.next, a.trace)
  | .mid (.awaitBegin env) =>
    let b := phaseB1 tx env
    some (b.tx, .mid (.finished b.result), b.trace)
  | .mid (.awaitQuery hranaStmt env) =>
    let b := phaseB2 tx hranaStmt env
    some (b.tx, .mid (.finished b.result), b.trace)
  | .mid (.finished _) => none

/-- Global state of one transaction with a pool of concurrent `execute`
calls and the accumulated stream trace. -/
structure Sched where
  tx : TxState
  tasks : List TaskPhase
  trace : List Event

/-- A fresh transaction (slot unassigned, nothing closed) with a pool
of queued `execute` calls. -/
def initSched (entries : List (InStatement × ExecEnv)) : Sched :=
  ⟨⟨none, false, false⟩, entries.map (fun pe => .entry pe.1 pe.2), []⟩

/-- Interleaving semantics: any task may run its next atomic segment. -/
inductive SchedStep (cache : Stmt → Stmt) : Sched → Sched → Prop where
  | step {s : Sched} {i : Nat} {p : TaskPhase}
      {out : TxState × TaskPhase × List Event}
      (hget : s.tasks[i]? = some p)
      (hrun : stepTask cache s.tx p = some out) :
      SchedStep cache s ⟨out.1, s.tasks.set i out.2.1, s.trace ++ out.2.2⟩

/-- Whether a batch step would send `BEGIN`. -/
def isBeginStep (st : Step) : Bool :=
  match st.req with
  | .run sql => sql == "BEGIN"
  | .query _ => false

/-- How many `BEGIN` statements one event sends to the stream. -/
def beginsInEvent : Event → Nat
  | .submitBatch steps => (steps.filter isBeginStep).length
  | .runStmt sql => if sql == "BEGIN" then 1 else 0
  | _ => 0

/-- Total number of `BEGIN` statements sent in a trace. -/
def countBegins (tr : List Event) : Nat :=
  (tr.map beginsInEvent).sum

theorem countBegins_append (t1 t2 : List Event) :
    countBegins (t1 ++ t2) = countBegins t1 + countBegins t2 := by
  simp [countBegins]

/-- The BEGIN batch contains exactly one `BEGIN`. -/
theorem countBegins_beginBatch (hranaStmt : Stmt) :
    countBegins [.submitBatch (beginBatchSteps hranaStmt)] = 1 := by
  simp [countBegins, beginsInEvent, beginBatchSteps, isBeginStep, List.filter]

/-- Effect of one atomic segment on the `#started` slot and the number
of `BEGIN`s it sends: either it sends none and leaves the slot as it
was, or it sends exactly one, in which case the slot was unassigned
before and is assigned afterwards. -/
theorem stepTask_begins (cache : Stmt → Stmt) (tx : TxState) (p : TaskPhase)
    {out : TxState × TaskPhase × List Event}
    (h : stepTask cache tx p = some out) :
    (countBegins out.2.2 = 0 ∧ out.1.started = tx.started) ∨
      (countBegins out.2.2 = 1 ∧ tx.started = none ∧ out.1.started ≠ none) := by
  cases p with
  | entry stmt env =>
    simp only [stepTask, phaseA] at h
    cases hc : tx.streamClosed with
    | true =>
      rw [hc] at h
      obtain rfl := Option.some.inj h
      left
      exact ⟨rfl, rfl⟩
    | false =>
      rw [hc] at h
      cases hs : tx.started with
      | none =>
        rw [hs] at h
        obtain rfl := Option.some.inj h
        right
        exact ⟨countBegins_beginBatch _, rfl, by simp⟩
      | some o =>
        rw [hs] at h
        obtain rfl := Option.some.inj h
        left
        exact ⟨rfl, hs⟩
  | mid k =>
    cases k with
    | finished r => simp [stepTask] at h
    | awaitBegin env =>
      simp only [stepTask, phaseB1] at h
      left
      cases hso : startedOutcomeOf env with
      | error e =>
        rw [hso] at h
        obtain rfl := Option.some.inj h
        exact ⟨rfl, rfl⟩
      | ok u =>
        rw [hso] at h
        cases har : awaitRows env.stmtOutcome with
        | error e =>
          rw [har] at h
          obtain rfl := Option.some.inj h
          exact ⟨rfl, rfl⟩
        | ok rows =>
          rw [har] at h
          obtain rfl := Option.some.inj h
          exact ⟨rfl, rfl⟩
    | awaitQuery hranaStmt env =>
      simp only [stepTask, phaseB2] at h
      left
      cases hs : tx.started with
      | none =>
        rw [hs] at h
        obtain rfl := Option.some.inj h
        exact ⟨rfl, hs⟩
      | some o =>
        cases o with
        | error e =>
          rw [hs] at h
          obtain rfl := Option.some.inj h
          exact ⟨rfl, hs⟩
        | ok u =>
          rw [hs] at h
          cases har : awaitRows env.stmtOutcome with
          | error e =>
            rw [har] at h
            obtain rfl := Option.some.inj h
            exact ⟨rfl, hs⟩
          | ok rows =>
            rw [har] at h
            obtain rfl := Option.some.inj h
            exact ⟨rfl, hs⟩

/-- Scheduler invariant: never more than one `BEGIN` in the trace, and
none at all while the slot is unassigned. -/
def SchedInv (s : Sched) : Prop :=
  countBegins s.trace ≤ 1 ∧ (s.tx.started = none → countBegins s.trace = 0)

theorem schedInv_init (entries : List (InStatement × ExecEnv)) :
    SchedInv (initSched entries) := by
  constructor <;> simp [initSched, countBegins]

theorem schedInv_step {cache : Stmt → Stmt} {s s1 : Sched}
    (h : SchedStep cache s s1) (hinv : SchedInv s) : SchedInv s1 := by
  cases h with
  | step hget hrun =>
    rename_i i p out
    rcases stepTask_begins cache s.tx p hrun with ⟨hz, hst⟩ | ⟨ho, hn, hsome⟩
    · constructor
      · simpa [SchedInv, countBegins_append, hz] using hinv.1
      · intro hnone
        simp only [countBegins_append, hz, Nat.add_zero]
        exact hinv.2 (hst ▸ hnone)
    · constructor
      · simp [countBegins_append, ho, hinv.2 hn]
      · intro hnone
        exact absurd hnone hsome

theorem schedInv_reachable {cache : Stmt → Stmt}
    (entries : List (InStatement × ExecEnv)) (s : Sched)
    (h : Relation.ReflTransGen (SchedStep cache) (initSched entries) s) :
    SchedInv s := by
  induction h with
  | refl => exact schedInv_init entries
  | tail _ hstep ih => exact schedInv_step hstep ih

/-- Successful result-collection always yields one result set per
statement. -/
theorem collectStmtResults_length (env : BatchEnv) :
    ∀ (l : List Stmt) (i : Nat) (rs : List ResultSet),
      collectStmtResults env i l = .ok rs → rs.length = l.length := by
  intro l
  induction l with
  | nil =>
    intro i rs h
    simp only [collectStmtResults] at h
    obtain rfl := Except.ok.inj h
    rfl
  | cons s rest ih =>
    intro i rs h
    simp only [collectStmtResults, awaitStep] at h
    cases ho : env.outcome i with
    | ok r =>
      rw [ho] at h
      cases hrec : collectStmtResults env (i + 1) rest with
      | error e => rw [hrec] at h; simp at h
      | ok rs1 =>
        rw [hrec] at h
        obtain rfl := (Except.ok.inj h).symm
        simp [ih (i + 1) rs1 hrec]
    | err e => rw [ho] at h; simp at h
    | skipped => rw [ho] at h; simp at h

/-- When every consulted statement step resolves with a result, the
collection returns the mapped results in submission order. -/
theorem collectStmtResults_all_ok (env : BatchEnv) (rowsOf : Nat → RowsResult) :
    ∀ (l : List Stmt) (i : Nat),
      (∀ m, m < l.length → env.outcome (i + m) = .ok (rowsOf (i + m))) →
      collectStmtResults env i l =
        .ok ((List.range l.length).map fun m => resultSetFromHrana (rowsOf (i + m))) := by
  intro l
  induction l with
  | nil => intro i _; simp [collectStmtResults]
  | cons s rest ih =>
    intro i hok
    have h0 : env.outcome i = .ok (rowsOf i) := by
      have := hok 0 (by simp)
      simpa using this
    have hrec := ih (i + 1) (fun m hm => by
      have := hok (m + 1) (by simpa using Nat.succ_lt_succ hm)
      have harith : i + (m + 1) = i + 1 + m := by omega
      rw [harith] at this
      exact this)
    simp only [collectStmtResults, awaitStep, h0, hrec]
    rw [List.length_cons, List.range_succ_eq_map]
    simp only [List.map_cons, List.map_map, Nat.add_zero]
    refine congrArg Except.ok (congrArg (resultSetFromHrana (rowsOf i) :: ·) ?_)
    refine List.map_congr_left fun m _ => ?_
    have : i + 1 + m = i + (m + 1) := by omega
    simp [Function.comp, this]

/-- When the batch submission and every earlier consulted step
succeeded but step `i + j` was skipped, the collection raises the
missing-result `SERVER_ERROR`. -/
theorem collectStmtResults_missing (env : BatchEnv) (rowsOf : Nat → RowsResult) :
    ∀ (j : Nat) (l : List Stmt) (i : Nat),
      j < l.length →
      (∀ m, m < j → env.outcome (i + m) = .ok (rowsOf (i + m))) →
      env.outcome (i + j) = .skipped →
      collectStmtResults env i l = .error serverMissingErr := by
  intro j
  induction j with
  | zero =>
    intro l i hlt hok hskip
    cases l with
    | nil => simp at hlt
    | cons s rest =>
      simp only [Nat.add_zero] at hskip
      simp [collectStmtResults, awaitStep, hskip]
  | succ j ih =>
    intro l i hlt hok hskip
    cases l with
    | nil => simp at hlt
    | cons s rest =>
      have h0 : env.outcome i = .ok (rowsOf i) := by
        have := hok 0 (by omega)
        simpa using this
      have hrec := ih rest (i + 1) (by simpa using Nat.lt_of_succ_lt_succ hlt)
        (fun m hm => by
          have := hok (m + 1) (by omega)
          have harith : i + (m + 1) = i + 1 + m := by omega
          rw [harith] at this
          exact this)
        (by
          have harith : i + (j + 1) = i + 1 + j := by omega
          rw [harith] at hskip
          exact hskip)
      simp [collectStmtResults, awaitStep, h0, hrec]

/-- The collection consults only the outcomes of the steps it awaits:
two environments agreeing there produce the same result. -/
theorem collectStmtResults_congr (env1 env2 : BatchEnv) :
    ∀ (l : List Stmt) (i : Nat),
      (∀ m, m < l.length → env1.outcome (i + m) = env2.outcome (i + m)) →
      collectStmtResults env1 i l = collectStmtResults env2 i l := by
  intro l
  induction l with
  | nil => intro i _; simp [collectStmtResults]
  | cons s rest ih =>
    intro i hag
    have h0 : env1.outcome i = env2.outcome i := by
      have := hag 0 (by simp)
      simpa using this
    have hrec := ih (i + 1) (fun m hm => by
      have := hag (m + 1) (by simpa using Nat.succ_lt_succ hm)
      have harith : i + (m + 1) = i + 1 + m := by omega
      rw [harith] at this
      exact this)
    simp only [collectStmtResults, awaitStep, h0, hrec]

/-- The statement-step builder yields the indexed step list and the
index of the last built step. -/
theorem buildStmtSteps_eq :
    ∀ (l : List Stmt) (k : Nat),
      (buildStmtSteps k l).1 =
        (List.enumFrom k l).map (fun p => Step.mk (some (.ok p.1)) (.query p.2)) ∧
      (buildStmtSteps k l).2 = k + l.length := by
  intro l
  induction l with
  | nil => intro k; simp [buildStmtSteps, List.enumFrom]
  | cons s rest ih =>
    intro k
    constructor
    · simp only [buildStmtSteps, List.enumFrom, List.map_cons]
      exact congrArg _ (ih (k + 1)).1
    · simp only [buildStmtSteps]
      rw [(ih (k + 1)).2]
      simp only [List.length_cons]
      omega

/-- Sample values used by the concrete witnesses. -/
def sampleRows : RowsResult := ⟨[some "x", none], [[.integer 1]], 0, none⟩

def sampleStmt : InStatement := .sqlOnly "SELECT 1"

def sampleHranaStmt : Stmt := ⟨"SELECT 1", [], []⟩

def idCache : Stmt → Stmt := fun s => s

def stmtA : Stmt := ⟨"INSERT 1", [], []⟩

def stmtB : Stmt := ⟨"INSERT 2", [], []⟩

/-- Batch environment where every step succeeds. -/
def batchEnvAllOk : BatchEnv := ⟨none, fun _ => .ok sampleRows⟩

/-- Batch environment where the first statement step fails and the
second is consequently skipped. -/
def envMissingAfterError : BatchEnv :=
  ⟨none, fun i =>
    match i with
    | 0 => .ok sampleRows
    | 1 => .err (.hrana (.responseError "stmt failed" (some "SQLITE_ERROR")))
    | _ => .skipped⟩

/-- Batch environment where the first statement step is skipped even
though nothing before it failed (a server-contract violation). -/
def envMissingZero : BatchEnv :=
  ⟨none, fun i =>
    match i with
    | 0 => .ok sampleRows
    | _ => .skipped⟩

/-- Whether a batch result is a `LibsqlError` with code
`SERVER_ERROR`. -/
def isLibsqlServerError : Except Err (List ResultSet) → Bool
  | .error (.libsql le) => le.code == "SERVER_ERROR"
  | _ => false

/-- C5: `mapHranaError` classifies every `hrana.ClientError` by subtype
— a `ResponseError` with a defined code keeps that code, one without a
code falls to `UNKNOWN`, each remaining subtype maps to its dedicated
code — always carrying the original message and the original error as
cause, while any non-`ClientError` value passes through unchanged. -/
theorem c5_mapHranaError_classification (m c t : String) (le : LibsqlError) :
    mapHranaError (.hrana (.responseError m (some c)))
      = .libsql ⟨m, c, some (.responseError m (some c))⟩
    ∧ mapHranaError (.hrana (.responseError m none))
      = .libsql ⟨m, "UNKNOWN", some (.responseError m none)⟩
    ∧ mapHranaError (.hrana (.protoError m))
      = .libsql ⟨m, "HRANA_PROTO_ERROR", some (.protoError m)⟩
    ∧ mapHranaError (.hrana (.closedError m))
      = .libsql ⟨m, "HRANA_CLOSED_ERROR", some (.closedError m)⟩
    ∧ mapHranaError (.hrana (.webSocketError m))
      = .libsql ⟨m, "HRANA_WEBSOCKET_ERROR", some (.webSocketError m)⟩
    ∧ mapHranaError (.hrana (.httpServerError m))
      = .libsql ⟨m, "SERVER_ERROR", some (.httpServerError m)⟩
    ∧ mapHranaError (.hrana (.protocolVersionError m))
      = .libsql ⟨m, "PROTOCOL_VERSION_ERROR", some (.protocolVersionError m)⟩
    ∧ mapHranaError (.hrana (.plainClient m))
      = .libsql ⟨m, "UNKNOWN", some (.plainClient m)⟩
    ∧ mapHranaError (.libsql le) = .libsql le
    ∧ mapHranaError (.other t) = .other t :=
  ⟨rfl, rfl, rfl, rfl, rfl, rfl, rfl, rfl, rfl, rfl⟩

/-- C6: `resultSetFromHrana` substitutes the empty string for absent
column names, copies rows and the affected-row count unchanged, keeps a
present row id, and leaves the id absent (never defaulted) when the
input supplies none — deterministically, so mapping the same id-less
input twice yields the identifier absent both times. -/
theorem c6_resultSetFromHrana_fields (h : RowsResult) :
    (resultSetFromHrana h).columns = h.columnNames.map (fun c => c.getD "")
    ∧ (resultSetFromHrana h).rows = h.rows
    ∧ (resultSetFromHrana h).rowsAffected = h.affectedRowCount
    ∧ (∀ rid, h.lastInsertRowid = some rid →
        (resultSetFromHrana h).lastInsertRowid = some rid)
    ∧ (h.lastInsertRowid = none →
        (resultSetFromHrana h).lastInsertRowid = none
        ∧ (resultSetFromHrana h).lastInsertRowid = none) := by
  refine ⟨?_, rfl, rfl, ?_, ?_⟩
  · exact List.map_congr_left fun col _ => by cases col <;> rfl
  · intro rid hrid
    simp [resultSetFromHrana, hrid]
  · intro hrid
    constructor <;> simp [resultSetFromHrana, hrid]

theorem c6_witness :
    (resultSetFromHrana ⟨[some "a", none], [], 3, none⟩).lastInsertRowid = none
    ∧ (resultSetFromHrana ⟨[some "a", none], [], 3, none⟩).columns = ["a", ""] := by
  have h := c6_resultSetFromHrana_fields ⟨[some "a", none], [], 3, none⟩
  exact ⟨(h.2.2.2.2 rfl).1, h.1.trans rfl⟩

/-- C3 (amended): a batch run never returns a result list shorter than
the statement count; when the submission and every step through
`COMMIT` succeed, it returns exactly the mapped result sets in
submission order; and when the submission, `BEGIN` and every statement
step before position `j` succeed while step `j`'s outcome is missing,
it fails with the `SERVER_ERROR` missing-result error.  (When an
earlier statement step itself failed, that step's own error is raised
first instead — see the counterexample.) -/
theorem c3_batch_results (stmts : List Stmt) (env : BatchEnv)
    (rowsOf : Nat → RowsResult) :
    (∀ rs, executeHranaBatchRun stmts env = .ok rs → rs.length = stmts.length)
    ∧ (env.execFailure = none →
        (∀ j, j ≤ stmts.length + 1 → env.outcome j = .ok (rowsOf j)) →
        executeHranaBatchRun stmts env =
          .ok ((List.range stmts.length).map fun j =>
            resultSetFromHrana (rowsOf (j + 1))))
    ∧ (∀ j, j < stmts.length →
        env.execFailure = none →
        env.outcome 0 = .ok (rowsOf 0) →
        (∀ m, m < j → env.outcome (m + 1) = .ok (rowsOf (m + 1))) →
        env.outcome (j + 1) = .skipped →
        executeHranaBatchRun stmts env = .error serverMissingErr) := by
  refine ⟨?_, ?_, ?_⟩
  · intro rs h
    simp only [executeHranaBatchRun] at h
    cases hef : env.execFailure with
    | some e => rw [hef] at h; exact Except.noConfusion h
    | none =>
      rw [hef] at h
      cases hb : awaitStep env 0 with
      | error e => rw [hb] at h; exact Except.noConfusion h
      | ok orows =>
        rw [hb] at h
        cases hcol : collectStmtResults env 1 stmts with
        | error e => rw [hcol] at h; exact Except.noConfusion h
        | ok rs1 =>
          rw [hcol] at h
          cases hc2 : awaitStep env (stmts.length + 1) with
          | error e => rw [hc2] at h; exact Except.noConfusion h
          | ok o2 =>
            rw [hc2] at h
            rw [← Except.ok.inj h]
            exact collectStmtResults_length env stmts 1 rs1 hcol
  · intro hef hall
    have hb0 : env.outcome 0 = .ok (rowsOf 0) := hall 0 (by omega)
    have hcom : env.outcome (stmts.length + 1) = .ok (rowsOf (stmts.length + 1)) :=
      hall _ (by omega)
    have hcol := collectStmtResults_all_ok env rowsOf stmts 1
      (fun m hm => hall (1 + m) (by omega))
    simp only [executeHranaBatchRun, awaitStep, hef, hb0, hcom, hcol]
    refine congrArg Except.ok (List.map_congr_left fun m _ => ?_)
    rw [Nat.add_comm]
  · intro j hj hef hb0 hpre hskip
    have hcol := collectStmtResults_missing env rowsOf j stmts 1 hj
      (fun m hm => by rw [Nat.add_comm 1 m]; exact hpre m hm)
      (by rw [Nat.add_comm 1 j]; exact hskip)
    simp only [executeHranaBatchRun, awaitStep, hef, hb0, hcol]

/-- C3 counterexample: with the first statement step failing and the
second statement step's outcome therefore missing, the run fails with
the first step's own error — not with a `LibsqlError` of code
`SERVER_ERROR` as the claim states. -/
theorem c3_counterexample :
    envMissingAfterError.outcome 2 = .skipped
    ∧ executeHranaBatchRun [stmtA, stmtB] envMissingAfterError
        = .error (.hrana (.responseError "stmt failed" (some "SQLITE_ERROR")))
    ∧ isLibsqlServerError
        (executeHranaBatchRun [stmtA, stmtB] envMissingAfterError) = false :=
  ⟨rfl, rfl, rfl⟩

theorem c3_witness :
    executeHranaBatchRun [stmtA] batchEnvAllOk = .ok [resultSetFromHrana sampleRows]
    ∧ executeHranaBatchRun [stmtA, stmtB] envMissingZero = .error serverMissingErr := by
  constructor
  · exact (c3_batch_results [stmtA] batchEnvAllOk (fun _ => sampleRows)).2.1 rfl
      (fun j hj => rfl)
  · exact (c3_batch_results [stmtA, stmtB] envMissingZero
      (fun _ => sampleRows)).2.2 0 (by decide) rfl rfl
      (fun m hm => absurd hm (by omega)) rfl

/-- C4: `executeHranaBatch` builds exactly the step sequence `BEGIN`,
each statement conditioned on its predecessor's success, `COMMIT`
conditioned on the last statement, `ROLLBACK` conditioned on the
`COMMIT` step not succeeding; submits the batch exactly once; and the
`ROLLBACK` step's own outcome never influences the result (its failure
is swallowed): the result depends only on the submission outcome and
the outcomes of steps `0 .. N+1`. -/
theorem c4_batch_step_construction (stmts : List Stmt) (env env2 : BatchEnv) :
    (executeHranaBatch stmts env).1.length = 1
    ∧ (executeHranaBatch stmts env).1 =
        [(⟨none, .run "BEGIN"⟩ ::
            ((List.enumFrom 0 stmts).map fun p =>
              Step.mk (some (.ok p.1)) (.query p.2))) ++
          [⟨some (.ok stmts.length), .run "COMMIT"⟩,
           ⟨some (.not (.ok (stmts.length + 1))), .run "ROLLBACK"⟩]]
    ∧ (env.execFailure = env2.execFailure →
        (∀ i, i ≤ stmts.length + 1 → env.outcome i = env2.outcome i) →
        (executeHranaBatch stmts env).2 = (executeHranaBatch stmts env2).2) := by
  refine ⟨rfl, ?_, ?_⟩
  · simp only [executeHranaBatch, hranaBatchSteps]
    rw [(buildStmtSteps_eq stmts 0).1, (buildStmtSteps_eq stmts 0).2]
    simp
  · intro h1 h2
    have ha0 : awaitStep env 0 = awaitStep env2 0 := by
      simp [awaitStep, h2 0 (by omega)]
    have hac : awaitStep env (stmts.length + 1) = awaitStep env2 (stmts.length + 1) := by
      simp [awaitStep, h2 (stmts.length + 1) (by omega)]
    have hcol := collectStmtResults_congr env env2 stmts 1
      (fun m hm => h2 (1 + m) (by omega))
    simp only [executeHranaBatch, executeHranaBatchRun, h1, ha0, hac, hcol]

theorem c4_witness :
    executeHranaBatchRun [stmtA] envMissingZero
      = executeHranaBatchRun [stmtA]
          ⟨none, fun i =>
            match i with
            | 0 => .ok sampleRows
            | 3 => .err (.hrana (.protoError "rollback failed"))
            | _ => .skipped⟩ := by
  refine (c4_batch_step_construction [stmtA] envMissingZero _).2.2 rfl ?_
  intro i hi
  match i, hi with
  | 0, _ => rfl
  | 1, _ => rfl
  | 2, _ => rfl

/-- Execute-call environments for the witnesses. -/
def envAllOk : ExecEnv := ⟨none, .ok sampleRows, .ok sampleRows⟩

def envBeginFail : ExecEnv :=
  ⟨none, .err (.hrana (.protoError "begin failed")), .skipped⟩

def envStmtFail : ExecEnv :=
  ⟨none, .ok sampleRows, .err (.hrana (.closedError "stmt failed"))⟩

def isSubmitBatch : Event → Bool
  | .submitBatch _ => true
  | _ => false

def countBatchSubmissions (tr : List Event) : Nat :=
  (tr.filter isSubmitBatch).length

def sendsStatement : Event → Bool
  | .submitBatch _ => true
  | .runStmt _ => true
  | .queryStmt _ => true
  | _ => false

/-- C1: the first `execute` on a not-yet-started transaction submits a
single batch whose step 0 is `BEGIN` and whose step 1 is the caller's
statement conditioned on `ok(step 0)`; if the submission or `BEGIN`
fails, the transaction is closed and that failure (mapped) propagates —
also to every waiter of the shared started outcome; if `BEGIN` succeeds
but the statement fails, only the statement's mapped error propagates
and the transaction stays open with the slot resolved successfully. -/
theorem c1_first_execute_begin_batch (cache : Stmt → Stmt) (tx : TxState)
    (stmt : InStatement) (env : ExecEnv)
    (hopen : tx.streamClosed = false) (hns : tx.started = none)
    (hnc : tx.txClosed = false) :
    (executeTx cache tx stmt env).trace.head? =
      some (.submitBatch [⟨none, .run "BEGIN"⟩,
        ⟨some (.ok 0), .query (cache (stmtToHrana stmt))⟩])
    ∧ countBatchSubmissions (executeTx cache tx stmt env).trace = 1
    ∧ (∀ e, startedOutcomeOf env = .error e →
        (executeTx cache tx stmt env).result = .error (mapHranaError e)
        ∧ (executeTx cache tx stmt env).tx.txClosed = true
        ∧ (executeTx cache tx stmt env).tx.started = some (.error e)
        ∧ (∀ hstmt2 env2,
            (phaseB2 (executeTx cache tx stmt env).tx hstmt2 env2).result
              = .error (mapHranaError e)))
    ∧ (∀ e, startedOutcomeOf env = .ok () → env.stmtOutcome = .err e →
        (executeTx cache tx stmt env).result = .error (mapHranaError e)
        ∧ (executeTx cache tx stmt env).tx.txClosed = false
        ∧ (executeTx cache tx stmt env).tx.started = some (.ok ())) := by
  have hA : phaseA cache tx stmt env =
      ⟨⟨some (startedOutcomeOf env), tx.txClosed, false⟩, .awaitBegin env,
       [.submitBatch (beginBatchSteps (cache (stmtToHrana stmt)))]⟩ := by
    simp only [phaseA]
    rw [hopen, hns]
  have hE : executeTx cache tx stmt env =
      ⟨(phaseB1 ⟨some (startedOutcomeOf env), tx.txClosed, false⟩ env).tx,
       (phaseB1 ⟨some (startedOutcomeOf env), tx.txClosed, false⟩ env).result,
       .submitBatch (beginBatchSteps (cache (stmtToHrana stmt))) ::
         (phaseB1 ⟨some (startedOutcomeOf env), tx.txClosed, false⟩ env).trace⟩ := by
    simp only [executeTx, hA]
    rfl
  refine ⟨by rw [hE]; rfl, ?_, ?_, ?_⟩
  · rw [hE]
    cases hso : startedOutcomeOf env with
    | error e =>
      simp [phaseB1, hso, countBatchSubmissions, isSubmitBatch]
    | ok u =>
      cases har : awaitRows env.stmtOutcome with
      | error e2 =>
        simp [phaseB1, hso, har, countBatchSubmissions, isSubmitBatch]
      | ok rows =>
        simp [phaseB1, hso, har, countBatchSubmissions, isSubmitBatch]
  · intro e he
    have hb : phaseB1 ⟨some (startedOutcomeOf env), tx.txClosed, false⟩ env =
        ⟨closeTx ⟨some (startedOutcomeOf env), tx.txClosed, false⟩,
         .error (mapHranaError e), [.closeTxCalled]⟩ := by
      simp only [phaseB1]
      rw [he]
    refine ⟨by rw [hE, hb], by rw [hE, hb]; rfl, by rw [hE, hb, he]; rfl, ?_⟩
    intro hstmt2 env2
    rw [hE, hb]
    simp only [phaseB2, closeTx]
    rw [he]
  · intro e hok hup
    have hb : phaseB1 ⟨some (startedOutcomeOf env), tx.txClosed, false⟩ env =
        ⟨⟨some (startedOutcomeOf env), tx.txClosed, false⟩,
         .error (mapHranaError e), []⟩ := by
      simp only [phaseB1, awaitRows]
      rw [hok, hup]
    exact ⟨by rw [hE, hb], by rw [hE, hb]; exact hnc, by rw [hE, hb, hok]⟩

theorem c1_witness :
    (executeTx idCache ⟨none, false, false⟩ sampleStmt envBeginFail).result
      = .error (mapHranaError (.hrana (.protoError "begin failed")))
    ∧ (executeTx idCache ⟨none, false, false⟩ sampleStmt envBeginFail).tx.txClosed = true
    ∧ (executeTx idCache ⟨none, false, false⟩ sampleStmt envBeginFail).trace.head? =
        some (.submitBatch [⟨none, .run "BEGIN"⟩, ⟨some (.ok 0), .query sampleHranaStmt⟩]) := by
  have h := c1_first_execute_begin_batch idCache ⟨none, false, false⟩ sampleStmt
    envBeginFail rfl rfl rfl
  have h3 := h.2.2.1 (.hrana (.protoError "begin failed")) rfl
  exact ⟨h3.1, h3.2.1, h.1⟩

/-- Scheduled pool of two concurrent `execute` calls used by the C2
witness. -/
def twoEntries : List (InStatement × ExecEnv) :=
  [(sampleStmt, envAllOk), (sampleStmt, envAllOk)]

/-- C2: in every interleaved schedule of any number of `execute` calls
on a fresh transaction, at most one `BEGIN` is ever sent: the first
prefix to run assigns the write-once started slot while submitting the
only BEGIN batch, and any call that finds the slot assigned suspends on
the shared outcome and then issues its statement directly, never
building a second batch. -/
theorem c2_single_begin_per_transaction (cache : Stmt → Stmt)
    (entries : List (InStatement × ExecEnv)) (s : Sched)
    (h : Relation.ReflTransGen (SchedStep cache) (initSched entries) s) :
    countBegins s.trace ≤ 1
    ∧ (∀ tx1 stmt env1 o, tx1.streamClosed = false → tx1.started = some o →
        phaseA cache tx1 stmt env1 =
          ⟨tx1, .awaitQuery (cache (stmtToHrana stmt)) env1, []⟩) := by
  refine ⟨(schedInv_reachable entries s h).1, ?_⟩
  intro tx1 stmt env1 o hopen1 hsome1
  simp only [phaseA]
  rw [hopen1, hsome1]

theorem c2_witness :
    countBegins [Event.submitBatch (beginBatchSteps sampleHranaStmt)] ≤ 1 :=
  (c2_single_begin_per_transaction idCache twoEntries
    ⟨⟨some (.ok ()), false, false⟩,
     [.mid (.awaitBegin envAllOk), .mid (.awaitQuery sampleHranaStmt envAllOk)],
     [.submitBatch (beginBatchSteps sampleHranaStmt)]⟩
    (Relation.ReflTransGen.tail
      (Relation.ReflTransGen.tail Relation.ReflTransGen.refl
        (@SchedStep.step idCache (initSched twoEntries) 0
          (.entry sampleStmt envAllOk)
          (⟨some (.ok ()), false, false⟩, .mid (.awaitBegin envAllOk),
           [.submitBatch (beginBatchSteps sampleHranaStmt)])
          rfl rfl))
      (@SchedStep.step idCache
        ⟨⟨some (.ok ()), false, false⟩,
         [.mid (.awaitBegin envAllOk), .entry sampleStmt envAllOk],
         [.submitBatch (beginBatchSteps sampleHranaStmt)]⟩ 1
        (.entry sampleStmt envAllOk)
        (⟨some (.ok ()), false, false⟩,
         .mid (.awaitQuery sampleHranaStmt envAllOk), [])
        rfl rfl))).1

/-- C7: every `rollback()` and `commit()` call terminates with the
transaction closed on every exit path — the `finally` release runs the
`close()` hook last in all cases, whatever the started state, stream
state and round-trip outcome. -/
theorem c7_close_guaranteed_release (tx : TxState) (envr envc : OpEnv) :
    (rollbackTx tx envr).tx.txClosed = true
    ∧ (commitTx tx envc).tx.txClosed = true
    ∧ (rollbackTx tx envr).trace.getLast? = some .closeTxCalled
    ∧ (commitTx tx envc).trace.getLast? = some .closeTxCalled := by
  obtain ⟨st, tc, sc⟩ := tx
  obtain ⟨rf⟩ := envr
  obtain ⟨cf⟩ := envc
  cases sc <;> rcases st with _ | (e | u) <;> cases rf <;> cases cf <;>
    exact ⟨rfl, rfl, rfl, rfl⟩

/-- C8: when the shared started outcome resolves to a `BEGIN` failure
`e`, the triggering call fails with the mapped `e` and closes the
transaction (stream included); every pending waiter of the shared
outcome fails with the same mapped `e` without touching the stream; and
a subsequent `commit()` on the resulting state terminates without ever
sending `COMMIT`. -/
theorem c8_begin_failure_shared (tx : TxState) (env : ExecEnv) (e : Err)
    (hfail : startedOutcomeOf env = .error e) :
    (phaseB1 tx env).result = .error (mapHranaError e)
    ∧ (phaseB1 tx env).tx.txClosed = true
    ∧ (phaseB1 tx env).tx.streamClosed = true
    ∧ (∀ tx2 hstmt2 env2, tx2.started = some (.error e) →
        (phaseB2 tx2 hstmt2 env2).result = .error (mapHranaError e)
        ∧ (phaseB2 tx2 hstmt2 env2).trace = [])
    ∧ (∀ envc, ∀ ev ∈ (commitTx (phaseB1 tx env).tx envc).trace,
        ev ≠ Event.runStmt "COMMIT") := by
  have hb : phaseB1 tx env = ⟨closeTx tx, .error (mapHranaError e), [.closeTxCalled]⟩ := by
    simp only [phaseB1]
    rw [hfail]
  refine ⟨by rw [hb], by rw [hb]; rfl, by rw [hb]; rfl, ?_, ?_⟩
  · intro tx2 hstmt2 env2 h2
    constructor <;> (simp only [phaseB2]; rw [h2])
  · intro envc ev hev
    rw [hb] at hev
    simp [commitTx, closeTx] at hev
    subst hev
    simp

theorem c8_witness :
    (phaseB1 ⟨none, false, false⟩ envBeginFail).result
      = .error (mapHranaError (.hrana (.protoError "begin failed")))
    ∧ (phaseB1 ⟨none, false, false⟩ envBeginFail).tx.txClosed = true
    ∧ (phaseB2 ⟨some (.error (.hrana (.protoError "begin failed"))), false, false⟩
        sampleHranaStmt envAllOk).result
      = .error (mapHranaError (.hrana (.protoError "begin failed"))) := by
  have h := c8_begin_failure_shared ⟨none, false, false⟩ envBeginFail
    (.hrana (.protoError "begin failed")) rfl
  exact ⟨h.1, h.2.1, (h.2.2.2.1 _ sampleHranaStmt envAllOk rfl).1⟩

/-- C9: `execute` and `commit` on a transaction whose stream is already
closed fail with the `TRANSACTION_CLOSED` `LibsqlError` and send
nothing on the stream. -/
theorem c9_closed_stream_rejection (cache : Stmt → Stmt) (tx : TxState)
    (stmt : InStatement) (env : ExecEnv) (envc : OpEnv)
    (hc : tx.streamClosed = true) :
    (executeTx cache tx stmt env).result
      = .error (.libsql ⟨execClosedMsg, "TRANSACTION_CLOSED", none⟩)
    ∧ (executeTx cache tx stmt env).trace = []
    ∧ (commitTx tx envc).result
      = .error (.libsql ⟨commitClosedMsg, "TRANSACTION_CLOSED", none⟩)
    ∧ ∀ ev ∈ (commitTx tx envc).trace, sendsStatement ev = false := by
  have hA : phaseA cache tx stmt env =
      ⟨tx, .finished (.error (.libsql ⟨execClosedMsg, "TRANSACTION_CLOSED", none⟩)), []⟩ := by
    simp only [phaseA]
    rw [hc]
  have hcm : commitTx tx envc =
      ⟨closeTx tx,
       .error (.libsql ⟨commitClosedMsg, "TRANSACTION_CLOSED", none⟩),
       [.closeTxCalled]⟩ := by
    simp only [commitTx]
    rw [hc]
    rfl
  refine ⟨by simp only [executeTx, hA], by simp only [executeTx, hA], by rw [hcm], ?_⟩
  intro ev hev
  rw [hcm] at hev
  simp at hev
  subst hev
  rfl

theorem c9_witness :
    (executeTx idCache ⟨none, false, true⟩ sampleStmt envAllOk).result
      = .error (.libsql ⟨execClosedMsg, "TRANSACTION_CLOSED", none⟩)
    ∧ (executeTx idCache ⟨none, false, true⟩ sampleStmt envAllOk).trace = []
    ∧ (commitTx ⟨none, false, true⟩ ⟨none⟩).result
      = .error (.libsql ⟨commitClosedMsg, "TRANSACTION_CLOSED", none⟩) := by
  have h := c9_closed_stream_rejection idCache ⟨none, false, true⟩ sampleStmt
    envAllOk ⟨none⟩ rfl
  exact ⟨h.1, h.2.1, h.2.2.1⟩

/-- C10: `rollback()` on a transaction whose started slot was never
assigned returns successfully without sending `ROLLBACK`, even with the
stream open (only the `close()` hook runs). -/
theorem c10_rollback_never_started (tx : TxState) (envr : OpEnv)
    (hns : tx.started = none) (hopen : tx.streamClosed = false) :
    (rollbackTx tx envr).result = .ok ()
    ∧ (rollbackTx tx envr).trace = [.closeTxCalled]
    ∧ ∀ ev ∈ (rollbackTx tx envr).trace, ev ≠ Event.runStmt "ROLLBACK" := by
  have hr : rollbackTx tx envr = ⟨closeTx tx, .ok (), [.closeTxCalled]⟩ := by
    simp only [rollbackTx]
    rw [hopen, hns]
  refine ⟨by rw [hr], by rw [hr], ?_⟩
  intro ev hev
  rw [hr] at hev
  simp at hev
  subst hev
  simp

theorem c10_witness :
    (rollbackTx ⟨none, false, false⟩ ⟨some (.hrana (.protoError "net down"))⟩).result
      = .ok ()
    ∧ (rollbackTx ⟨none, false, false⟩ ⟨some (.hrana (.protoError "net down"))⟩).trace
      = [.closeTxCalled] := by
  have h := c10_rollback_never_started ⟨none, false, false⟩
    ⟨some (.hrana (.protoError "net down"))⟩ rfl rfl
  exact ⟨h.1, h.2.1⟩

end LibsqlClient
